import Mathlib

/-!
Verification of the Li Code Review static-analysis engine
(`analyzer.js`: rule table, language detector, line classifier,
`analyzeFile`, `analyzeDiff`, `generateSummary`).

Regular expressions from the source are embedded as data (`Re`) and run by a
backtracking matcher whose boolean result agrees with JavaScript
`RegExp.test` on match existence (greediness and the `g` flag do not affect
existence; `lastIndex` is reset by the engine before every test).
-/

namespace LiAgent

/-! ## Character classes (JS regex classes, ASCII semantics of `\w`, `\d`) -/

def wsC (c : Char) : Bool :=
  c = ' ' || c = '\t' || c = '\n' || c = '\r' || c = '\x0b' || c = '\x0c' || c = ' '

def wordC (c : Char) : Bool := c.isAlpha || c.isDigit || c = '_'

def digitC (c : Char) : Bool := c.isDigit

/-- JS `.` : any character except line terminators. -/
def dotC (c : Char) : Bool := !(c = '\n' || c = '\r' || c = ' ' || c = ' ')

/-- JS `[\s\S]` : any character. -/
def anyC (_ : Char) : Bool := true

/-! ## Regex syntax

Only the constructs used by the rule table: literals (optionally
case-insensitive), single-character classes, bounded/unbounded repetition of
a character class, sequencing, alternation, option, negative lookahead, and
the anchors `^`, `$`, `\b`. -/

inductive Re where
  | eps
  | lit (ci : Bool) (s : String)
  | cls (p : Char → Bool)
  | rep (p : Char → Bool) (lo : Nat) (hi : Option Nat)
  | seq (a b : Re)
  | alt (a b : Re)
  | opt (a : Re)
  | nla (a : Re)
  | bos
  | eos
  | wordB

def rseq (l : List Re) : Re := l.foldr Re.seq Re.eps

/-- Alternation of a list; the empty list never matches. -/
def raltL : List Re → Re
  | [] => Re.nla Re.eps
  | [x] => x
  | x :: xs => Re.alt x (raltL xs)

def rstrs (ci : Bool) (ss : List String) : Re := raltL (ss.map (Re.lit ci))

def oneOf (cs : List Char) : Re := Re.cls (fun c => cs.contains c)

def noneOf (cs : List Char) : Re := Re.cls (fun c => !cs.contains c)

/-- `[^cs]*` -/
def starNoneOf (cs : List Char) : Re := Re.rep (fun c => !cs.contains c) 0 none

/-- `\s*` -/
def rws : Re := Re.rep wsC 0 none

/-- `\s+` -/
def rws1 : Re := Re.rep wsC 1 none

/-- `\w+` -/
def rword1 : Re := Re.rep wordC 1 none

/-- `.*` (existence-equivalent to the lazy form used in the source) -/
def rdots : Re := Re.rep dotC 0 none

/-! ## Matcher -/

def charEq (ci : Bool) (a b : Char) : Bool :=
  if ci then a.toLower == b.toLower else a == b

/-- Consume a literal; returns the new previous-character and remainder. -/
def stripLit (ci : Bool) : List Char → Option Char → List Char →
    Option (Option Char × List Char)
  | [], prev, s => some (prev, s)
  | t :: ts, prev, s =>
    match s with
    | [] => none
    | c :: s' => if charEq ci t c then stripLit ci ts (some c) s' else none

/-- Previous character after consuming `n` characters of `s` (with `prev`
the character before `s`). -/
def prevAfter (prev : Option Char) (s : List Char) (n : Nat) : Option Char :=
  match (s.take n).getLast? with
  | some c => some c
  | none => prev

def isWordOpt : Option Char → Bool
  | some c => wordC c
  | none => false

def isWordHead : List Char → Bool
  | c :: _ => wordC c
  | [] => false

/-- CPS backtracking matcher: `matchRe r prev s k` holds iff `r` can consume
some prefix of `s` (with `prev` the character just before `s`, `none` at the
start of the input) such that the continuation `k` accepts the remainder. -/
def matchRe : Re → Option Char → List Char → (Option Char → List Char → Bool) → Bool
  | .eps, prev, s, k => k prev s
  | .lit ci t, prev, s, k =>
    match stripLit ci t.data prev s with
    | some (p', s') => k p' s'
    | none => false
  | .cls p, prev, s, k =>
    match s with
    | [] => false
    | c :: s' => p c && k (some c) s'
  | .rep p lo hi, prev, s, k =>
    let run := (s.takeWhile p).length
    let top := match hi with | none => run | some h => min h run
    if lo ≤ top then
      (List.range (top + 1 - lo)).any fun d =>
        k (prevAfter prev s (lo + d)) (s.drop (lo + d))
    else false
  | .seq a b, prev, s, k => matchRe a prev s (fun p' s' => matchRe b p' s' k)
  | .alt a b, prev, s, k => matchRe a prev s k || matchRe b prev s k
  | .opt a, prev, s, k => k prev s || matchRe a prev s k
  | .nla a, prev, s, k => !(matchRe a prev s (fun _ _ => true)) && k prev s
  | .bos, prev, s, k => prev.isNone && k prev s
  | .eos, prev, s, k => s.isEmpty && k prev s
  | .wordB, prev, s, k => (isWordOpt prev != isWordHead s) && k prev s

/-- Search for a match starting at any position. -/
def searchFrom (r : Re) : Option Char → List Char → Bool
  | prev, [] => matchRe r prev [] (fun _ _ => true)
  | prev, c :: s' =>
    matchRe r prev (c :: s') (fun _ _ => true) || searchFrom r (some c) s'

/-- `r.test(s)` of JavaScript (existence of a match). -/
def reTest (r : Re) (s : String) : Bool := searchFrom r none s.data

/-! ## String splitting (JS `String.prototype.split` with a one-character
separator) -/

def splitCharList (sep : Char) : List Char → List String
  | [] => [""]
  | c :: rest =>
    if c = sep then "" :: splitCharList sep rest
    else
      match splitCharList sep rest with
      | [] => [String.mk [c]]
      | l :: ls => String.mk (c :: l.data) :: ls

def splitChar (sep : Char) (s : String) : List String := splitCharList sep s.data

/-- `content.split('\n')` -/
def splitLines (content : String) : List String := splitChar '\n' content

/-! ## Language detector (`detectLanguage`) -/

def extMap : List (String × String) :=
  [("js", "js"), ("mjs", "js"), ("cjs", "js"), ("jsx", "jsx"),
   ("ts", "ts"), ("mts", "ts"), ("cts", "ts"), ("tsx", "tsx"),
   ("py", "py"), ("pyw", "py"),
   ("go", "go"),
   ("rs", "rust"),
   ("java", "java"),
   ("rb", "rb"),
   ("php", "php"),
   ("c", "c"), ("h", "c"),
   ("cpp", "cpp"), ("cc", "cpp"), ("cxx", "cpp"), ("hpp", "cpp")]

def lastOf : List String → String
  | [] => ""
  | [x] => x
  | _ :: x :: xs => lastOf (x :: xs)

/-- `toLowerCase` (character-wise, as for the ASCII extensions involved). -/
def strToLower (s : String) : String := String.mk (s.data.map Char.toLower)

/-- `filepath.split('.').pop()?.toLowerCase()` then map lookup with the raw
extension as fallback. -/
def detectLanguage (filepath : String) : String :=
  let ext := strToLower (lastOf (splitChar '.' filepath))
  match List.lookup ext extMap with
  | some lang => lang
  | none => ext

/-! ## Severity -/

/-- `const SEVERITY = \x7b info: 0, warning: 1, error: 2 \x7d` -/
def SEVERITY (s : String) : Option Nat :=
  if s = "info" then some 0
  else if s = "warning" then some 1
  else if s = "error" then some 2
  else none

/-- `SEVERITY[x] || 0` (JS: an absent key yields `undefined`, which the
`|| 0` turns into `0`; the value `0` itself also yields `0`). -/
def sevOrZero (s : String) : Nat := (SEVERITY s).getD 0

/-! ## Line classifier: `/^\s*(?:\/\/|#|\/\*|\*|--|;)/` -/

def commentRe : Re := rseq [Re.bos, rws, rstrs false ["//", "#", "/*", "*", "--", ";"]]

def isComment (line : String) : Bool := reTest commentRe line

/-! ## Data model -/

structure Finding where
  ruleId : String
  ruleName : String
  severity : String
  line : Nat
  message : String
  suggestion : String
deriving DecidableEq, Repr

structure BlockIssue where
  line : Nat
  message : String
  suggestion : String
deriving DecidableEq, Repr

inductive RuleCheck where
  | lineRule (pat : Re) (contextFilter : Option (String → String → Bool))
  | blockRule (check : List String → List BlockIssue)

structure Rule where
  id : String
  name : String
  severity : String
  languages : List String
  check : RuleCheck
  message : String
  suggestion : String

structure FileUnit where
  filepath : String
  content : String
  changedLines : Option (List Nat)

structure FileResult where
  filepath : String
  issues : List Finding
deriving DecidableEq, Repr

/-! ## The GEN002 block rule (`Long Function`) -/

/-- Capture of `line.match(/(?:function|def|func|fn)\s+(\w+)/)`: at a given
position, try the alternatives in order; each requires the keyword, then at
least one whitespace character, then at least one word character (the
captured name, taken greedily). -/
def tryKeyword (kw : String) (cs : List Char) : Option String :=
  if kw.data.isPrefixOf cs then
    let rest := cs.drop kw.data.length
    let ws := rest.takeWhile wsC
    if ws.length = 0 then none
    else
      let name := (rest.drop ws.length).takeWhile wordC
      if name.isEmpty then none else some (String.mk name)
  else none

def funcMatchFrom : List Char → Option String
  | [] => none
  | c :: rest =>
    match tryKeyword "function" (c :: rest) <|> tryKeyword "def" (c :: rest)
      <|> tryKeyword "func" (c :: rest) <|> tryKeyword "fn" (c :: rest) with
    | some n => some n
    | none => funcMatchFrom rest

def funcMatch (line : String) : Option String := funcMatchFrom line.data

def countChar (c : Char) (s : String) : Nat := (s.data.filter (fun x => x = c)).length

def gen002Msg (name : String) (len : Nat) : String :=
  "ℹ️ **Long Function**: `" ++ name ++ "` is " ++ toString len
    ++ " lines long. Consider breaking it up."

def gen002Sug : String :=
  "Functions over 50 lines are harder to test and maintain. Extract sub-functions."

/-- The loop body of the GEN002 `check`: `fstate` is `funcStart` with the
matched function name (`none` encodes `funcStart === -1`), `depth` the
running `braceDepth` (reset to `0` whenever a new function start is
recorded, which the `d0` below reproduces). -/
def gen002Go : List String → Nat → Option (Nat × String) → Int → List BlockIssue
  | [], _, _, _ => []
  | line :: rest, i, fstate, depth =>
    let opened :=
      match fstate with
      | some s => some s
      | none =>
        match funcMatch line with
        | some name => some (i, name)
        | none => none
    match opened with
    | none => gen002Go rest (i + 1) none depth
    | some (j, name) =>
      let d0 : Int := match fstate with | none => 0 | some _ => depth
      let d := d0 + (countChar '\x7b' line : Int) - (countChar '\x7d' line : Int)
      if d ≤ 0 ∧ j < i then
        (if 50 < i - j then [⟨j + 1, gen002Msg name (i - j), gen002Sug⟩] else [])
          ++ gen002Go rest (i + 1) none d
      else gen002Go rest (i + 1) (some (j, name)) d

def gen002Check (lines : List String) : List BlockIssue := gen002Go lines 0 none 0

/-! ## Rule table

Each rule is translated from the source rule object; the regex source is
quoted in the comment above its `Re` encoding. -/

-- /(?:query|execute|exec|raw)\s*\(\s*(?:`[^`]*\$\{|f['"][^'"]*\{|['"].*?\+\s*(?:req|request|params|input|user|args)|['"].*?%s|['"].*?\?\s*%)/gi
def sec001 : Rule :=
  { id := "SEC001", name := "SQL Injection Risk", severity := "error",
    languages := ["js", "ts", "py", "java", "go", "rb", "php"],
    check := .lineRule
      (rseq [rstrs true ["query", "execute", "exec", "raw"], rws, Re.lit true "(", rws,
        raltL
          [rseq [Re.lit true "`", starNoneOf ['`'], Re.lit true "$\x7b"],
           rseq [Re.lit true "f", oneOf ['\'', '"'], starNoneOf ['\'', '"'], Re.lit true "\x7b"],
           rseq [oneOf ['\'', '"'], rdots, Re.lit true "+", rws,
             rstrs true ["req", "request", "params", "input", "user", "args"]],
           rseq [oneOf ['\'', '"'], rdots, Re.lit true "%s"],
           rseq [oneOf ['\'', '"'], rdots, Re.lit true "?", rws, Re.lit true "%"]]])
      none,
    message := "🔴 **SQL Injection Risk**: String interpolation in SQL query. Use parameterized queries instead.",
    suggestion := "Use parameterized queries: `db.query(\"SELECT * FROM users WHERE id = ?\", [userId])`" }

-- /\beval\s*\(/g
def sec002 : Rule :=
  { id := "SEC002", name := "eval() Usage", severity := "error",
    languages := ["js", "ts", "py"],
    check := .lineRule (rseq [Re.wordB, Re.lit false "eval", rws, Re.lit false "("]) none,
    message := "🔴 **Dangerous eval()**: `eval()` executes arbitrary code and is a major security risk.",
    suggestion := "Use `JSON.parse()` for JSON, `new Function()` if absolutely necessary, or refactor to avoid dynamic code execution." }

-- /(?:password|secret|api_key|apikey|api_secret|access_token|auth_token|private_key)\s*[:=]\s*['"][^'"]{8,}['"]/gi
def sec003 : Rule :=
  { id := "SEC003", name := "Hardcoded Secrets", severity := "error",
    languages := ["*"],
    check := .lineRule
      (rseq [rstrs true ["password", "secret", "api_key", "apikey", "api_secret",
          "access_token", "auth_token", "private_key"],
        rws, oneOf [':', '='], rws, oneOf ['\'', '"'],
        Re.rep (fun c => !(['\'', '"'].contains c)) 8 none, oneOf ['\'', '"']])
      none,
    message := "🔴 **Hardcoded Secret**: Credentials should never be hardcoded. Use environment variables.",
    suggestion := "Use `process.env.SECRET_NAME` or a secrets manager like AWS Secrets Manager, Vault, etc." }

-- /(?:readFile|readFileSync|open|fopen|os\.path\.join|filepath\.Join)\s*\([^)]*(?:req\.|request\.|params\.|input|user_input|args)/gi
def sec004 : Rule :=
  { id := "SEC004", name := "Path Traversal", severity := "error",
    languages := ["js", "ts", "py", "go", "java", "rb", "php"],
    check := .lineRule
      (rseq [rstrs true ["readFile", "readFileSync", "open", "fopen", "os.path.join",
          "filepath.Join"],
        rws, Re.lit true "(", starNoneOf [')'],
        rstrs true ["req.", "request.", "params.", "input", "user_input", "args"]])
      none,
    message := "🔴 **Path Traversal Risk**: User input used in file path without sanitization.",
    suggestion := "Validate and sanitize file paths. Use `path.resolve()` and check the result stays within the expected directory." }

-- /\.innerHTML\s*=\s*(?!['"`]<)/g
def sec005 : Rule :=
  { id := "SEC005", name := "XSS via innerHTML", severity := "error",
    languages := ["js", "ts"],
    check := .lineRule
      (rseq [Re.lit false ".innerHTML", rws, Re.lit false "=", rws,
        Re.nla (rseq [oneOf ['\'', '"', '`'], Re.lit false "<"])])
      none,
    message := "🔴 **XSS Risk**: Setting `innerHTML` with dynamic content can lead to cross-site scripting.",
    suggestion := "Use `textContent` for text, or sanitize HTML with DOMPurify before using innerHTML." }

-- /(?:exec|spawn|system|popen|subprocess\.call|subprocess\.run|os\.system)\s*\([^)]*(?:\+|`|\$\{|\.format|%s|f['"])/gi
def sec006 : Rule :=
  { id := "SEC006", name := "Command Injection", severity := "error",
    languages := ["js", "ts", "py", "rb", "php"],
    check := .lineRule
      (rseq [rstrs true ["exec", "spawn", "system", "popen", "subprocess.call",
          "subprocess.run", "os.system"],
        rws, Re.lit true "(", starNoneOf [')'],
        raltL [Re.lit true "+", Re.lit true "`", Re.lit true "$\x7b",
          Re.lit true ".format", Re.lit true "%s",
          rseq [Re.lit true "f", oneOf ['\'', '"']]]])
      none,
    message := "🔴 **Command Injection Risk**: User input in shell command without proper escaping.",
    suggestion := "Use array-form of exec (e.g., `execFile`) or properly escape shell arguments." }

-- /Math\.random\s*\(\)/g with contextFilter /(?:token|secret|password|key|auth|session|nonce|salt|hash|crypto)/i
def sec007 : Rule :=
  { id := "SEC007", name := "Insecure Randomness", severity := "warning",
    languages := ["js", "ts"],
    check := .lineRule (rseq [Re.lit false "Math.random", rws, Re.lit false "()"])
      (some fun line _ =>
        reTest (rstrs true ["token", "secret", "password", "key", "auth", "session",
          "nonce", "salt", "hash", "crypto"]) line),
    message := "⚠️ **Insecure Randomness**: `Math.random()` is not cryptographically secure.",
    suggestion := "For security-sensitive operations, use `crypto.randomBytes()` or `crypto.getRandomValues()`." }

-- /(?:verify\s*=\s*False|rejectUnauthorized\s*:\s*false|InsecureSkipVerify\s*:\s*true|VERIFY_NONE|ssl_verify.*false)/gi
def sec008 : Rule :=
  { id := "SEC008", name := "Disabled SSL Verification", severity := "error",
    languages := ["py", "js", "ts", "go", "java", "rb"],
    check := .lineRule
      (raltL
        [rseq [Re.lit true "verify", rws, Re.lit true "=", rws, Re.lit true "False"],
         rseq [Re.lit true "rejectUnauthorized", rws, Re.lit true ":", rws, Re.lit true "false"],
         rseq [Re.lit true "InsecureSkipVerify", rws, Re.lit true ":", rws, Re.lit true "true"],
         Re.lit true "VERIFY_NONE",
         rseq [Re.lit true "ssl_verify", rdots, Re.lit true "false"]])
      none,
    message := "🔴 **SSL Verification Disabled**: This makes connections vulnerable to man-in-the-middle attacks.",
    suggestion := "Enable SSL verification in production. Only disable for local development if absolutely necessary." }

-- /[^=!<>]==[^=]/g with contextFilter skipping lines where /['"`].*==.*['"`]/ matches
def bug001 : Rule :=
  { id := "BUG001", name := "Loose Equality", severity := "warning",
    languages := ["js", "ts"],
    check := .lineRule (rseq [noneOf ['=', '!', '<', '>'], Re.lit false "==", noneOf ['=']])
      (some fun line _ =>
        !(reTest (rseq [oneOf ['\'', '"', '`'], rdots, Re.lit false "==", rdots,
          oneOf ['\'', '"', '`']]) line)),
    message := "⚠️ **Loose Equality**: `==` performs type coercion. Use `===` for strict comparison.",
    suggestion := "Replace `==` with `===` and `!=` with `!==` to avoid unexpected type coercion." }

-- /(?:0\.\d+|parseFloat|float\()\s*===?\s*(?:0\.\d+|parseFloat|float\()/g
def floatOperand : Re :=
  raltL [rseq [Re.lit false "0.", Re.rep digitC 1 none], Re.lit false "parseFloat",
    Re.lit false "float("]

def bug002 : Rule :=
  { id := "BUG002", name := "Floating Point Comparison", severity := "warning",
    languages := ["js", "ts", "py", "java", "go", "c", "cpp"],
    check := .lineRule
      (rseq [floatOperand, rws, Re.lit false "==", Re.opt (Re.lit false "="), rws,
        floatOperand])
      none,
    message := "⚠️ **Floating Point Comparison**: Direct comparison of floating-point numbers is unreliable.",
    suggestion := "Use `Math.abs(a - b) < Number.EPSILON` or a tolerance-based comparison." }

-- /(?:^|\s)(?:const|let|var)\s+\w+\s*=\s*(?:\w+\.(?:find|save|create|update|delete|fetch|get|post|put|patch|remove|insert|query)\s*\()/gm
def bug003 : Rule :=
  { id := "BUG003", name := "Missing await", severity := "warning",
    languages := ["js", "ts"],
    check := .lineRule
      (rseq [Re.alt Re.bos (Re.cls wsC), rstrs false ["const", "let", "var"], rws1,
        rword1, rws, Re.lit false "=", rws, rword1, Re.lit false ".",
        rstrs false ["find", "save", "create", "update", "delete", "fetch", "get",
          "post", "put", "patch", "remove", "insert", "query"],
        rws, Re.lit false "("])
      (some fun line _ => !(reTest (Re.lit false "await") line)),
    message := "⚠️ **Possible Missing await**: This async operation may need `await` to work correctly.",
    suggestion := "If this function returns a Promise, add `await` to ensure proper execution order." }

-- /catch\s*(?:\([^)]*\))?\s*\{\s*\}/g
def bug004 : Rule :=
  { id := "BUG004", name := "Empty Catch Block", severity := "warning",
    languages := ["js", "ts", "java", "py"],
    check := .lineRule
      (rseq [Re.lit false "catch", rws,
        Re.opt (rseq [Re.lit false "(", starNoneOf [')'], Re.lit false ")"]), rws,
        Re.lit false "\x7b", rws, Re.lit false "\x7d"])
      none,
    message := "⚠️ **Empty Catch Block**: Silently swallowing errors makes debugging impossible.",
    suggestion := "At minimum, log the error: `catch (e) \x7b console.error(e); \x7d` or handle it properly." }

-- /console\.log\s*\(/g with contextFilter skipping lines matching /\/\/.*console|test|spec|debug/
def bug005 : Rule :=
  { id := "BUG005", name := "Console.log in Production", severity := "info",
    languages := ["js", "ts"],
    check := .lineRule (rseq [Re.lit false "console.log", rws, Re.lit false "("])
      (some fun line _ =>
        !(reTest (raltL [rseq [Re.lit false "//", rdots, Re.lit false "console"],
          Re.lit false "test", Re.lit false "spec", Re.lit false "debug"]) line)),
    message := "ℹ️ **Console.log**: Consider removing console.log from production code.",
    suggestion := "Use a proper logger (winston, pino) or remove before deploying." }

-- /\/\/\s*(?:TODO|FIXME|HACK|XXX|BUG|WORKAROUND)[\s:]/gi
def bug006 : Rule :=
  { id := "BUG006", name := "TODO/FIXME/HACK Comments", severity := "info",
    languages := ["*"],
    check := .lineRule
      (rseq [Re.lit true "//", rws,
        rstrs true ["TODO", "FIXME", "HACK", "XXX", "BUG", "WORKAROUND"],
        Re.cls (fun c => wsC c || c = ':')])
      none,
    message := "ℹ️ **Technical Debt**: Found a TODO/FIXME comment that should be tracked.",
    suggestion := "Create a GitHub issue to track this technical debt item." }

-- /(?:for|forEach|map|\.each)\s*(?:\(|{)[\s\S]{0,100}(?:await|\.query|\.find|\.get|\.fetch|\.execute|\.select)/gm
def perf001Pat : Re :=
  rseq [rstrs false ["for", "forEach", "map", ".each"], rws, oneOf ['(', '\x7b'],
    Re.rep anyC 0 (some 100),
    rstrs false ["await", ".query", ".find", ".get", ".fetch", ".execute", ".select"]]

def perf001 : Rule :=
  { id := "PERF001", name := "N+1 Query Pattern", severity := "warning",
    languages := ["js", "ts", "py", "rb", "java"],
    check := .lineRule perf001Pat none,
    message := "⚠️ **N+1 Query**: Database query inside a loop causes performance issues.",
    suggestion := "Batch queries outside the loop, or use eager loading / JOINs." }

-- /(?:readFileSync|writeFileSync|mkdirSync|readdirSync|statSync|existsSync|appendFileSync|copyFileSync|renameSync|unlinkSync|rmdirSync)\s*\(/g
def perf002 : Rule :=
  { id := "PERF002", name := "Synchronous I/O", severity := "warning",
    languages := ["js", "ts"],
    check := .lineRule
      (rseq [rstrs false ["readFileSync", "writeFileSync", "mkdirSync", "readdirSync",
          "statSync", "existsSync", "appendFileSync", "copyFileSync", "renameSync",
          "unlinkSync", "rmdirSync"],
        rws, Re.lit false "("])
      (some fun line _ =>
        !(reTest (rstrs false ["config", "setup", "init", "boot", "build", "script",
          "cli", "bin"]) line)),
    message := "⚠️ **Synchronous I/O**: Blocking I/O operations can freeze the event loop.",
    suggestion := "Use async versions (e.g., `fs.promises.readFile`) to avoid blocking." }

-- /while\s*\(true\)[\s\S]{0,200}\.push\s*\(/gm
def perf003 : Rule :=
  { id := "PERF003", name := "Unbounded Array Growth", severity := "warning",
    languages := ["js", "ts", "py"],
    check := .lineRule
      (rseq [Re.lit false "while", rws, Re.lit false "(true)",
        Re.rep anyC 0 (some 200), Re.lit false ".push", rws, Re.lit false "("])
      none,
    message := "⚠️ **Unbounded Array Growth**: Array growing in infinite loop can cause memory exhaustion.",
    suggestion := "Add a maximum size check or use a bounded data structure." }

-- /(?:for|while|forEach|map)\s*(?:\(|{)[\s\S]{0,50}new RegExp\(/gm
def perf004 : Rule :=
  { id := "PERF004", name := "Regex in Loop", severity := "info",
    languages := ["js", "ts", "py", "java"],
    check := .lineRule
      (rseq [rstrs false ["for", "while", "forEach", "map"], rws, oneOf ['(', '\x7b'],
        Re.rep anyC 0 (some 50), Re.lit false "new RegExp("])
      none,
    message := "ℹ️ **Regex in Loop**: Creating regex inside a loop is inefficient.",
    suggestion := "Compile the regex once outside the loop." }

-- /def\s+\w+\s*\([^)]*(?:=\s*\[\]|=\s*\{\}|=\s*set\(\))/g
def py001 : Rule :=
  { id := "PY001", name := "Mutable Default Argument", severity := "error",
    languages := ["py"],
    check := .lineRule
      (rseq [Re.lit false "def", rws1, rword1, rws, Re.lit false "(", starNoneOf [')'],
        raltL [rseq [Re.lit false "=", rws, Re.lit false "[]"],
          rseq [Re.lit false "=", rws, Re.lit false "\x7b\x7d"],
          rseq [Re.lit false "=", rws, Re.lit false "set()"]]])
      none,
    message := "🔴 **Mutable Default Argument**: Mutable default arguments are shared between calls.",
    suggestion := "Use `None` as default and create the mutable object inside the function: `def f(x=None): x = x or []`" }

-- /except\s*:/g
def py002 : Rule :=
  { id := "PY002", name := "Bare Except", severity := "warning",
    languages := ["py"],
    check := .lineRule (rseq [Re.lit false "except", rws, Re.lit false ":"]) none,
    message := "⚠️ **Bare Except**: Catches all exceptions including KeyboardInterrupt and SystemExit.",
    suggestion := "Use `except Exception:` at minimum, or catch specific exceptions." }

-- /^assert\s+/gm with contextFilter (line, filepath) => !/test/.test(filepath)
def py003 : Rule :=
  { id := "PY003", name := "Assert in Production", severity := "warning",
    languages := ["py"],
    check := .lineRule (rseq [Re.bos, Re.lit false "assert", rws1])
      (some fun _ filepath => !(reTest (Re.lit false "test") filepath)),
    message := "⚠️ **Assert in Production**: Assert statements are stripped with `-O` flag.",
    suggestion := "Use explicit `if not condition: raise ValueError()` for production validation." }

-- /[^,]\s*:?=\s*\w+\.\w+\([^)]*\)\s*$/gm
def go001 : Rule :=
  { id := "GO001", name := "Unchecked Error", severity := "warning",
    languages := ["go"],
    check := .lineRule
      (rseq [noneOf [','], rws, Re.opt (Re.lit false ":"), Re.lit false "=", rws,
        rword1, Re.lit false ".", rword1, Re.lit false "(", starNoneOf [')'],
        Re.lit false ")", rws, Re.eos])
      none,
    message := "⚠️ **Unchecked Error**: Go function may return an error that is not being checked.",
    suggestion := "Check errors: `result, err := fn(); if err != nil \x7b return err \x7d`" }

-- /go\s+func\s*\(/g
def go002 : Rule :=
  { id := "GO002", name := "Goroutine Leak", severity := "warning",
    languages := ["go"],
    check := .lineRule
      (rseq [Re.lit false "go", rws1, Re.lit false "func", rws, Re.lit false "("]) none,
    message := "⚠️ **Goroutine Leak Risk**: Anonymous goroutine without clear lifecycle management.",
    suggestion := "Ensure goroutines have proper cancellation via context or done channels." }

-- /use(?:Effect|Callback|Memo)\s*\(\s*(?:\(\)|[^,]+),\s*\[\s*\]\s*\)/g
def react001 : Rule :=
  { id := "REACT001", name := "Missing Dependency Array", severity := "warning",
    languages := ["js", "ts", "jsx", "tsx"],
    check := .lineRule
      (rseq [Re.lit false "use", rstrs false ["Effect", "Callback", "Memo"], rws,
        Re.lit false "(", rws,
        raltL [Re.lit false "()", Re.rep (fun c => !(c = ',')) 1 none],
        Re.lit false ",", rws, Re.lit false "[", rws, Re.lit false "]", rws,
        Re.lit false ")"])
      none,
    message := "⚠️ **Empty Dependency Array**: Hook with empty deps array runs only once. Verify this is intentional.",
    suggestion := "Add all referenced variables to the dependency array, or add a comment explaining why it should only run once." }

-- /(?:function|const)\s+\w+\s*(?:=|)\s*(?:\([^)]*\))?\s*(?:=>)?\s*\{[^}]*set\w+\s*\([^}]*return\s*(?:\(|<)/gms
def react002 : Rule :=
  { id := "REACT002", name := "State Update in Render", severity := "error",
    languages := ["js", "ts", "jsx", "tsx"],
    check := .lineRule
      (rseq [rstrs false ["function", "const"], rws1, rword1, rws,
        Re.opt (Re.lit false "="), rws,
        Re.opt (rseq [Re.lit false "(", starNoneOf [')'], Re.lit false ")"]), rws,
        Re.opt (Re.lit false "=>"), rws, Re.lit false "\x7b", starNoneOf ['\x7d'],
        Re.lit false "set", rword1, rws, Re.lit false "(", starNoneOf ['\x7d'],
        Re.lit false "return", rws, Re.alt (Re.lit false "(") (Re.lit false "<")])
      none,
    message := "🔴 **State Update in Render**: Setting state during render causes infinite re-renders.",
    suggestion := "Move state updates to event handlers or useEffect." }

-- /:\s*any\b/g
def ts001 : Rule :=
  { id := "TS001", name := "any Type", severity := "info",
    languages := ["ts", "tsx"],
    check := .lineRule (rseq [Re.lit false ":", rws, Re.lit false "any", Re.wordB]) none,
    message := "ℹ️ **`any` Type**: Using `any` defeats the purpose of TypeScript.",
    suggestion := "Use a specific type, `unknown` for truly unknown types, or generics." }

-- /\w+!\./g
def ts002 : Rule :=
  { id := "TS002", name := "Non-null Assertion", severity := "warning",
    languages := ["ts", "tsx"],
    check := .lineRule (rseq [rword1, Re.lit false "!."]) none,
    message := "⚠️ **Non-null Assertion**: `!.` bypasses null checking and can cause runtime errors.",
    suggestion := "Use optional chaining (`?.`) or add a proper null check." }

-- /(?:if|while|for|return|===?|!==?|[<>]=?)\s*\d{3,}/g with contextFilter /(?:port|status|code|http|error|errno|0x|pixel|width|height|size)/i
def gen001 : Rule :=
  { id := "GEN001", name := "Magic Number", severity := "info",
    languages := ["*"],
    check := .lineRule
      (rseq [raltL [Re.lit false "if", Re.lit false "while", Re.lit false "for",
          Re.lit false "return",
          rseq [Re.lit false "==", Re.opt (Re.lit false "=")],
          rseq [Re.lit false "!=", Re.opt (Re.lit false "=")],
          rseq [oneOf ['<', '>'], Re.opt (Re.lit false "=")]],
        rws, Re.rep digitC 3 none])
      (some fun line _ =>
        !(reTest (rstrs true ["port", "status", "code", "http", "error", "errno", "0x",
          "pixel", "width", "height", "size"]) line)),
    message := "ℹ️ **Magic Number**: Large numeric literals should be named constants for readability.",
    suggestion := "Extract to a named constant: `const MAX_RETRIES = 1000;`" }

/-- The GEN002 rule object carries no `message`/`suggestion` fields in the
source (block issues supply their own); the record fields are unused. -/
def gen002 : Rule :=
  { id := "GEN002", name := "Long Function", severity := "info",
    languages := ["*"],
    check := .blockRule gen002Check,
    message := "", suggestion := "" }

def rules : List Rule :=
  [sec001, sec002, sec003, sec004, sec005, sec006, sec007, sec008,
   bug001, bug002, bug003, bug004, bug005, bug006,
   perf001, perf002, perf003, perf004,
   py001, py002, py003,
   go001, go002,
   react001, react002,
   ts001, ts002,
   gen001, gen002]

/-! ## The analyzer (`analyzeFile`) -/

def mkFinding (r : Rule) (n : Nat) : Finding :=
  { ruleId := r.id, ruleName := r.name, severity := r.severity, line := n,
    message := r.message, suggestion := r.suggestion }

def blockFinding (r : Rule) (b : BlockIssue) : Finding :=
  { ruleId := r.id, ruleName := r.name, severity := r.severity, line := b.line,
    message := b.message, suggestion := b.suggestion }

/-- `if (rule.contextFilter && !rule.contextFilter(line, filepath)) continue`:
a missing filter always passes. -/
def ctxPass : Option (String → String → Bool) → String → String → Bool
  | some cf, line, fp => cf line fp
  | none, _, _ => true

/-- The inner loop over lines of a line rule: skip comments, test the
pattern, apply the context filter, emit one finding per matching line at
1-based line number `i + 1`. -/
def lineScanGo (r : Rule) (filepath : String) (pat : Re)
    (ctx : Option (String → String → Bool)) : List String → Nat → List Finding
  | [], _ => []
  | line :: rest, i =>
    let tail := lineScanGo r filepath pat ctx rest (i + 1)
    if isComment line then tail
    else if reTest pat line then
      if ctxPass ctx line filepath then mkFinding r (i + 1) :: tail else tail
    else tail

/-- Per-rule dispatch of `analyzeFile`: severity guard, language guard, then
the block check or the per-line scan. -/
def ruleFindings (filepath lang : String) (lines : List String) (minSev : Nat)
    (r : Rule) : List Finding :=
  if sevOrZero r.severity < minSev then []
  else if !(r.languages.contains "*") && !(r.languages.contains lang) then []
  else
    match r.check with
    | .blockRule check => (check lines).map (blockFinding r)
    | .lineRule pat ctx => lineScanGo r filepath pat ctx lines 0

def flatMapF (g : Rule → List Finding) : List Rule → List Finding
  | [] => []
  | r :: rs => g r ++ flatMapF g rs

def analyzeFile (filepath content : String) (minSeverity : String) : List Finding :=
  flatMapF
    (ruleFindings filepath (detectLanguage filepath) (splitLines content)
      (sevOrZero minSeverity))
    rules

/-! ## Diff-scoped analysis (`analyzeDiff`) -/

/-- The loop body of `analyzeDiff`: `!file.content || !file.filepath`
(JavaScript falsiness of the empty string) skips the unit entirely;
otherwise the file is analyzed and, when a non-empty changed-line list is
present, findings are filtered to those whose line is in it. -/
def diffStep (minSeverity : String) (file : FileUnit) : Option FileResult :=
  if file.content = "" ∨ file.filepath = "" then none
  else
    let issues := analyzeFile file.filepath file.content minSeverity
    match file.changedLines with
    | some cl =>
      if 0 < cl.length then
        some { filepath := file.filepath,
               issues := issues.filter (fun i => cl.contains i.line) }
      else some { filepath := file.filepath, issues := issues }
    | none => some { filepath := file.filepath, issues := issues }

def analyzeDiff (files : List FileUnit) (minSeverity : String) : List FileResult :=
  files.filterMap (diffStep minSeverity)

/-! ## Summary generation (`generateSummary`) -/

/-- The inner counting loop: `(total, errors, warnings, infos)`. -/
def tallyGo : List Finding → Nat × Nat × Nat × Nat → Nat × Nat × Nat × Nat
  | [], acc => acc
  | issue :: rest, (t, e, w, inf) =>
    if issue.severity = "error" then tallyGo rest (t + 1, e + 1, w, inf)
    else if issue.severity = "warning" then tallyGo rest (t + 1, e, w + 1, inf)
    else tallyGo rest (t + 1, e, w, inf + 1)

def tallyResults : List FileResult → Nat × Nat × Nat × Nat → Nat × Nat × Nat × Nat
  | [], acc => acc
  | r :: rs, acc => tallyResults rs (tallyGo r.issues acc)

def plural (n : Nat) : String := if n = 1 then "" else "s"

def noIssuesMessage : String :=
  "✅ **Li Code Review**: No issues found. Code looks good! 🎉\n\n<sub>[Li Code Review](https://lbartoszcze.github.io/li-agent/) — Free AI-powered code review</sub>"

def summaryHeader (total : Nat) : String :=
  "## 🔍 Li Code Review Summary\n\nFound **" ++ toString total ++ "** issue"
    ++ plural total ++ ":\n"

def errLine (n : Nat) : String :=
  "- 🔴 **" ++ toString n ++ "** error" ++ plural n ++ "\n"

def warnLine (n : Nat) : String :=
  "- ⚠️ **" ++ toString n ++ "** warning" ++ plural n ++ "\n"

def infoLine (n : Nat) : String :=
  "- ℹ️ **" ++ toString n ++ "** info" ++ plural n ++ "\n"

def summaryFooter : String :=
  "\n<sub>[Li Code Review](https://lbartoszcze.github.io/li-agent/) — Free AI-powered code review | Want deeper analysis? [Get a full audit](https://buy.stripe.com/cNi7sLex9bwm2qy8Iwd3i13)</sub>"

def generateSummary (allResults : List FileResult) : String :=
  match tallyResults allResults (0, 0, 0, 0) with
  | (totalIssues, errors, warnings, infos) =>
    if totalIssues = 0 then noIssuesMessage
    else
      summaryHeader totalIssues
        ++ (if 0 < errors then errLine errors else "")
        ++ (if 0 < warnings then warnLine warnings else "")
        ++ (if 0 < infos then infoLine infos else "")
        ++ summaryFooter

/-- What `analyzeDiff` records for one kept unit. -/
def unitResult (m : String) (u : FileUnit) : FileResult :=
  let issues := analyzeFile u.filepath u.content m
  match u.changedLines with
  | some cl =>
    if 0 < cl.length then
      { filepath := u.filepath, issues := issues.filter (fun i => cl.contains i.line) }
    else { filepath := u.filepath, issues := issues }
  | none => { filepath := u.filepath, issues := issues }

/-! ## Specification-side helper definitions (used to state the claims) -/

/-- Index of an id in a list of ids (first occurrence). -/
def idIndex : List String → String → Nat
  | [], _ => 0
  | x :: xs, t => if x = t then 0 else idIndex xs t + 1

/-- Position of a finding's rule in the rule table's declaration order. -/
def ruleOrder (f : Finding) : Nat := idIndex (rules.map Rule.id) f.ruleId

/-- Output order of `analyzeFile`: rule-declaration order outer, ascending
line number inner. -/
def findingLex (a b : Finding) : Prop :=
  ruleOrder a < ruleOrder b ∨ (ruleOrder a = ruleOrder b ∧ a.line < b.line)

/-- All findings of a result sequence, in order. -/
def allIssues : List FileResult → List Finding
  | [] => []
  | r :: rs => r.issues ++ allIssues rs

def totalOf (rs : List FileResult) : Nat := (allIssues rs).length

def errOf (rs : List FileResult) : Nat :=
  ((allIssues rs).filter (fun f => f.severity == "error")).length

def warnOf (rs : List FileResult) : Nat :=
  ((allIssues rs).filter
    (fun f => !(f.severity == "error") && f.severity == "warning")).length

def infoOf (rs : List FileResult) : Nat :=
  ((allIssues rs).filter
    (fun f => !(f.severity == "error") && !(f.severity == "warning"))).length

/-- Substring occurrence test over character lists. -/
def hasSubList (pat : List Char) : List Char → Bool
  | [] => pat.isPrefixOf []
  | c :: r => pat.isPrefixOf (c :: r) || hasSubList pat r

def hasSubstr (s pat : String) : Bool := hasSubList pat.data s.data

/-- Case-insensitive substring occurrence. -/
def containsIC (s pat : String) : Bool := hasSubstr (strToLower s) (strToLower pat)

/-- Concrete inputs used by witnesses. -/
def c3unit : FileUnit :=
  { filepath := "a.js", content := "eval(x)\neval(y)", changedLines := some [2] }

def c3res : FileResult := { filepath := "a.js", issues := [mkFinding sec002 2] }

def c9results : List FileResult :=
  [{ filepath := "a.js", issues := [mkFinding sec002 1] }]

/-! # Structural lemmas about the engine -/

theorem data_append (a b : String) : (a ++ b).data = a.data ++ b.data := by
  cases a; cases b; rfl

theorem flatMapF_mem {g : Rule → List Finding} {l : List Rule} {f : Finding} :
    f ∈ flatMapF g l ↔ ∃ r ∈ l, f ∈ g r := by
  induction l with
  | nil => simp [flatMapF]
  | cons r rs ih => simp [flatMapF, List.mem_append, ih]

theorem flatMapF_congr {g g' : Rule → List Finding} {l : List Rule}
    (h : ∀ r ∈ l, g r = g' r) : flatMapF g l = flatMapF g' l := by
  induction l with
  | nil => rfl
  | cons r rs ih =>
    simp only [flatMapF, h r (List.mem_cons_self r rs)]
    rw [ih fun s hs => h s (List.mem_cons_of_mem r hs)]

theorem flatMapF_eq_nil {g : Rule → List Finding} {l : List Rule}
    (h : ∀ r ∈ l, g r = []) : flatMapF g l = [] := by
  induction l with
  | nil => rfl
  | cons r rs ih =>
    simp only [flatMapF, h r (List.mem_cons_self r rs), List.nil_append]
    exact ih fun s hs => h s (List.mem_cons_of_mem r hs)

theorem flatMapF_filter (q : Finding → Bool) (g : Rule → List Finding) (l : List Rule) :
    (flatMapF g l).filter q = flatMapF (fun r => (g r).filter q) l := by
  induction l with
  | nil => rfl
  | cons r rs ih => simp only [flatMapF, List.filter_append, ih]

/-- Every finding emitted by the per-line scan records the rule's id and
severity and points at a 1-based, non-comment line. -/
theorem lineScanGo_mem {r : Rule} {fp : String} {pat : Re}
    {ctx : Option (String → String → Bool)} :
    ∀ {lines : List String} {i : Nat} {f : Finding},
      f ∈ lineScanGo r fp pat ctx lines i →
      ∃ j, j < lines.length ∧ f = mkFinding r (i + j + 1) ∧
        isComment (lines.getD j "") = false ∧ reTest pat (lines.getD j "") = true
  | [], i, f, h => by simp [lineScanGo] at h
  | line :: rest, i, f, h => by
    simp only [lineScanGo] at h
    by_cases hc : isComment line
    · rw [if_pos hc] at h
      obtain ⟨j, hj, hf, hcm, hp⟩ := lineScanGo_mem h
      exact ⟨j + 1, by simpa using hj, by simpa [Nat.add_assoc, Nat.add_comm,
        Nat.add_left_comm] using hf, by simpa using hcm, by simpa using hp⟩
    · rw [if_neg hc] at h
      by_cases hp : reTest pat line
      · rw [if_pos hp] at h
        have tail : f ∈ lineScanGo r fp pat ctx rest (i + 1) →
            ∃ j, j < (line :: rest).length ∧ f = mkFinding r (i + j + 1) ∧
              isComment ((line :: rest).getD j "") = false ∧
              reTest pat ((line :: rest).getD j "") = true := by
          intro ht
          obtain ⟨j, hj, hf, hcm, hpp⟩ := lineScanGo_mem ht
          exact ⟨j + 1, by simpa using hj, by simpa [Nat.add_assoc, Nat.add_comm,
            Nat.add_left_comm] using hf, by simpa using hcm, by simpa using hpp⟩
        by_cases hcf : ctxPass ctx line fp
        · rw [if_pos hcf] at h
          rcases List.mem_cons.mp h with hhead | htail
          · exact ⟨0, by simp, by simpa using hhead, by simpa using hc, by simpa using hp⟩
          · exact tail htail
        · rw [if_neg hcf] at h
          exact tail h
      · rw [if_neg hp] at h
        obtain ⟨j, hj, hf, hcm, hpp⟩ := lineScanGo_mem h
        exact ⟨j + 1, by simpa using hj, by simpa [Nat.add_assoc, Nat.add_comm,
          Nat.add_left_comm] using hf, by simpa using hcm, by simpa using hpp⟩

theorem lineScanGo_line_gt {r : Rule} {fp : String} {pat : Re}
    {ctx : Option (String → String → Bool)} {lines : List String} {i : Nat}
    {f : Finding} (h : f ∈ lineScanGo r fp pat ctx lines i) : i < f.line := by
  obtain ⟨j, _, hf, _, _⟩ := lineScanGo_mem h
  subst hf
  simp [mkFinding]
  omega

theorem lineScanGo_pairwise (r : Rule) (fp : String) (pat : Re)
    (ctx : Option (String → String → Bool)) :
    ∀ (lines : List String) (i : Nat),
      (lineScanGo r fp pat ctx lines i).Pairwise fun a b => a.line < b.line
  | [], _ => List.Pairwise.nil
  | line :: rest, i => by
    have tailPw := lineScanGo_pairwise r fp pat ctx rest (i + 1)
    have head : ∀ b ∈ lineScanGo r fp pat ctx rest (i + 1),
        (mkFinding r (i + 1)).line < b.line := by
      intro b hb
      have := lineScanGo_line_gt hb
      simp [mkFinding]
      omega
    simp only [lineScanGo]
    by_cases hc : isComment line
    · rw [if_pos hc]; exact tailPw
    · rw [if_neg hc]
      by_cases hp : reTest pat line
      · rw [if_pos hp]
        by_cases hcf : ctxPass ctx line fp
        · rw [if_pos hcf]; exact List.Pairwise.cons head tailPw
        · rw [if_neg hcf]; exact tailPw
      · rw [if_neg hp]; exact tailPw

/-- Fields recorded on every finding a rule emits. -/
theorem ruleFindings_mem {fp lang : String} {lines : List String} {minSev : Nat}
    {r : Rule} {f : Finding} (h : f ∈ ruleFindings fp lang lines minSev r) :
    f.ruleId = r.id ∧ f.severity = r.severity ∧
      ¬(sevOrZero r.severity < minSev) ∧
      (r.languages.contains "*" = true ∨ r.languages.contains lang = true) := by
  unfold ruleFindings at h
  by_cases hs : sevOrZero r.severity < minSev
  · rw [if_pos hs] at h; simp at h
  · rw [if_neg hs] at h
    by_cases hl : (!(r.languages.contains "*") && !(r.languages.contains lang)) = true
    · rw [if_pos hl] at h; simp at h
    · rw [if_neg hl] at h
      have hlang : r.languages.contains "*" = true ∨ r.languages.contains lang = true := by
        by_cases h1 : r.languages.contains "*" = true
        · exact Or.inl h1
        · by_cases h2 : r.languages.contains lang = true
          · exact Or.inr h2
          · rw [Bool.not_eq_true] at h1 h2
            exact absurd (by rw [h1, h2]; rfl) hl
      refine ⟨?_, ?_, hs, hlang⟩ <;>
        · match hck : r.check with
          | .blockRule chk =>
            rw [hck] at h
            obtain ⟨b, _, hb⟩ := List.mem_map.mp h
            simp [← hb, blockFinding]
          | .lineRule pat ctx =>
            rw [hck] at h
            obtain ⟨j, _, hf, _, _⟩ := lineScanGo_mem h
            simp [hf, mkFinding]

theorem ruleFindings_empty_line (fp lang : String) (minSev : Nat) :
    ∀ r ∈ rules, ruleFindings fp lang [""] minSev r = [] := by
  intro r hr
  fin_cases hr <;>
    (unfold ruleFindings
     split
     · rfl
     · split
       · rfl
       · rfl)

/-! # Claims -/

/-- Claim C2: `analyzeFile` is a total pure Lean function of
`(path, content, minSeverity)` (so it terminates, never throws, and two runs
on identical input agree definitionally); in particular, for every path and
every severity floor, empty content yields zero findings. -/
theorem analyzeFile_empty_content (p m : String) : analyzeFile p "" m = [] := by
  unfold analyzeFile
  rw [show splitLines "" = [""] from rfl]
  exact flatMapF_eq_nil (ruleFindings_empty_line p (detectLanguage p) (sevOrZero m))

/-- Claim C1: every finding returned by `analyzeFile` comes from a rule of
the rule table whose numeric severity is at least the requested floor
(under `info < warning < error`) and whose language set contains the
language detected from the path or the wildcard. Proved for every
`minSeverity` string, hence in particular for the three levels. -/
theorem analyzeFile_floor_and_language (p c m : String) (f : Finding)
    (hf : f ∈ analyzeFile p c m) :
    ∃ r ∈ rules, f.ruleId = r.id ∧ sevOrZero m ≤ sevOrZero r.severity ∧
      ("*" ∈ r.languages ∨ detectLanguage p ∈ r.languages) := by
  obtain ⟨r, hr, hfr⟩ := flatMapF_mem.mp hf
  obtain ⟨hid, _, hsev, hlang⟩ := ruleFindings_mem hfr
  refine ⟨r, hr, hid, Nat.le_of_not_lt hsev, ?_⟩
  rcases hlang with h | h
  · exact Or.inl (by simpa using h)
  · exact Or.inr (by simpa using h)

/-- Witness for C1 at a concrete input (`eval(x)` in a `.js` file at floor
`error` produces the SEC002 finding on line 1). -/
theorem analyzeFile_floor_and_language_witness :
    ∃ r ∈ rules, (mkFinding sec002 1).ruleId = r.id ∧
      sevOrZero "error" ≤ sevOrZero r.severity ∧
      ("*" ∈ r.languages ∨ detectLanguage "a.js" ∈ r.languages) :=
  analyzeFile_floor_and_language "a.js" "eval(x)" "error" (mkFinding sec002 1)
    (by decide)

theorem analyzeFile_congr_floor {m m' : String} (p c : String)
    (h : sevOrZero m = sevOrZero m') : analyzeFile p c m = analyzeFile p c m' := by
  unfold analyzeFile
  rw [h]

/-- Claim C10: a `minSeverity` string that is none of `info`, `warning`,
`error` makes the numeric floor `0` (`SEVERITY[minSeverity] || 0`), so
`analyzeFile` raises no error and behaves exactly as floor `info`. -/
theorem analyzeFile_unknown_severity (p c m : String)
    (h1 : m ≠ "info") (h2 : m ≠ "warning") (h3 : m ≠ "error") :
    sevOrZero m = 0 ∧ analyzeFile p c m = analyzeFile p c "info" := by
  have hz : sevOrZero m = 0 := by
    unfold sevOrZero SEVERITY
    rw [if_neg h1, if_neg h2, if_neg h3]
    rfl
  exact ⟨hz, analyzeFile_congr_floor p c (by rw [hz]; rfl)⟩

/-- Witness for C10 at the concrete upper-cased floor `"ERROR"`. -/
theorem analyzeFile_unknown_severity_witness :
    sevOrZero "ERROR" = 0 ∧
      analyzeFile "a.js" "eval(x)" "ERROR" = analyzeFile "a.js" "eval(x)" "info" :=
  analyzeFile_unknown_severity "a.js" "eval(x)" "ERROR" (by decide) (by decide)
    (by decide)

theorem diffStep_eq_some {m : String} {u : FileUnit}
    (h : ¬(u.content = "" ∨ u.filepath = "")) :
    diffStep m u = some (unitResult m u) := by
  unfold diffStep unitResult
  rw [if_neg h]
  cases u.changedLines with
  | none => rfl
  | some cl => by_cases hcl : 0 < cl.length <;> simp [hcl]

/-- Counterexample to claim C6: a unit with a path and the empty string as
content is skipped by `analyzeDiff` (JavaScript `!file.content` is true for
`""`), so no result record is produced for it, where the claim demands
exactly one. -/
theorem analyzeDiff_skips_empty_content :
    analyzeDiff [{ filepath := "a.js", content := "", changedLines := none }]
      "warning" = [] := rfl

/-- Claim C6 (amended): `analyzeDiff` returns exactly one result record,
carrying the unit's path and its (possibly changed-line-filtered) findings,
in input order, for each unit whose content and path are both non-empty
strings; units whose content or path is the empty string are skipped. -/
theorem analyzeDiff_one_record_per_kept_unit (files : List FileUnit) (m : String) :
    analyzeDiff files m =
      (files.filter fun u => !(u.content == "") && !(u.filepath == "")).map
        (unitResult m) := by
  induction files with
  | nil => rfl
  | cons u us ih =>
    unfold analyzeDiff at ih ⊢
    rw [List.filterMap_cons, List.filter_cons]
    by_cases h1 : u.content = "" ∨ u.filepath = ""
    · have hnone : diffStep m u = none := by unfold diffStep; rw [if_pos h1]
      have hb : (!(u.content == "") && !(u.filepath == "")) = false := by
        rcases h1 with h | h <;> simp [h]
      rw [hnone, hb]
      simpa using ih
    · have hb : (!(u.content == "") && !(u.filepath == "")) = true := by
        push_neg at h1
        simp [h1.1, h1.2]
      rw [diffStep_eq_some h1, hb]
      simp [ih]

/-- Claim C3: every record returned by `analyzeDiff` stems from an input
unit; when that unit carries a non-empty changed-line list the record's
findings are the file's findings filtered to lines in that list (so every
returned finding's line is a member of it), and when the unit carries no
changed-line list, or an empty one, all of the file's findings are kept. -/
theorem analyzeDiff_changed_line_filter (files : List FileUnit) (m : String)
    (res : FileResult) (hres : res ∈ analyzeDiff files m) :
    ∃ u ∈ files, res.filepath = u.filepath ∧
      ((∃ cl, u.changedLines = some cl ∧ 0 < cl.length ∧
          res.issues = (analyzeFile u.filepath u.content m).filter
            (fun i => cl.contains i.line) ∧
          ∀ i ∈ res.issues, i.line ∈ cl) ∨
        ((u.changedLines = none ∨ u.changedLines = some []) ∧
          res.issues = analyzeFile u.filepath u.content m)) := by
  obtain ⟨u, hu, hstep⟩ := List.mem_filterMap.mp hres
  unfold diffStep at hstep
  by_cases hg : u.content = "" ∨ u.filepath = ""
  · rw [if_pos hg] at hstep
    exact absurd hstep (by simp)
  · rw [if_neg hg] at hstep
    refine ⟨u, hu, ?_⟩
    cases hcl : u.changedLines with
    | none =>
      simp only [hcl] at hstep
      obtain rfl := Option.some.inj hstep
      exact ⟨rfl, Or.inr ⟨Or.inl rfl, rfl⟩⟩
    | some cl =>
      simp only [hcl] at hstep
      by_cases hlen : 0 < cl.length
      · rw [if_pos hlen] at hstep
        obtain rfl := Option.some.inj hstep
        refine ⟨rfl, Or.inl ⟨cl, rfl, hlen, rfl, ?_⟩⟩
        intro i hi
        have := (List.mem_filter.mp hi).2
        simpa using this
      · rw [if_neg hlen] at hstep
        obtain rfl := Option.some.inj hstep
        have : cl = [] := List.length_eq_zero.mp (Nat.eq_zero_of_not_pos hlen)
        exact ⟨rfl, Or.inr ⟨Or.inr (by rw [this]), rfl⟩⟩

/-- Witness for C3 at a concrete diff: two `eval` findings, changed-line
set `[2]`, so only the line-2 finding remains. -/
theorem analyzeDiff_changed_line_filter_witness :
    ∃ u ∈ [c3unit],
      c3res.filepath = u.filepath ∧
      ((∃ cl, u.changedLines = some cl ∧ 0 < cl.length ∧
          c3res.issues = (analyzeFile u.filepath u.content "info").filter
            (fun i => cl.contains i.line) ∧
          ∀ i ∈ c3res.issues, i.line ∈ cl) ∨
        ((u.changedLines = none ∨ u.changedLines = some []) ∧
          c3res.issues = analyzeFile u.filepath u.content "info")) :=
  analyzeDiff_changed_line_filter [c3unit] "info" c3res (by decide)

/-! ## Ordering of GEN002 block issues -/

theorem gen002Go_line_lb :
    ∀ (lines : List String) (i : Nat) (st : Option (Nat × String)) (d : Int)
      (lb : Nat),
      (st = none → lb ≤ i + 1) →
      (∀ j name, st = some (j, name) → j < i ∧ lb ≤ j + 1) →
      ∀ b ∈ gen002Go lines i st d, lb ≤ b.line
  | [], i, st, d, lb, h0, hs, b, hb => by simp [gen002Go] at hb
  | line :: rest, i, st, d, lb, h0, hs, b, hb => by
    cases st with
    | none =>
      simp only [gen002Go] at hb
      cases hm : funcMatch line with
      | none =>
        rw [hm] at hb
        exact gen002Go_line_lb rest (i + 1) none d lb
          (fun _ => Nat.le_succ_of_le (h0 rfl)) (by simp) b hb
      | some name =>
        rw [hm] at hb
        simp only [] at hb
        have hcond : ¬((0 : Int) + (countChar '\x7b' line : Int)
            - (countChar '\x7d' line : Int) ≤ 0 ∧ i < i) :=
          fun h => absurd h.2 (lt_irrefl i)
        rw [if_neg hcond] at hb
        exact gen002Go_line_lb rest (i + 1) (some (i, name)) _ lb (by simp)
          (fun j nm hjn => by
            obtain ⟨rfl, _⟩ := Prod.mk.injEq .. ▸ Option.some.inj hjn
            exact ⟨Nat.lt_succ_self i, h0 rfl⟩) b hb
    | some jn =>
      obtain ⟨j, name⟩ := jn
      obtain ⟨hji, hlb⟩ := hs j name rfl
      simp only [gen002Go] at hb
      by_cases hcond : (d + (countChar '\x7b' line : Int)
          - (countChar '\x7d' line : Int) ≤ 0 ∧ j < i)
      · rw [if_pos hcond] at hb
        rcases List.mem_append.mp hb with hl | hr
        · by_cases h50 : 50 < i - j
          · rw [if_pos h50] at hl
            rcases List.mem_singleton.mp hl with rfl
            exact hlb
          · rw [if_neg h50] at hl
            simp at hl
        · exact gen002Go_line_lb rest (i + 1) none _ lb
            (fun _ => by omega) (by simp) b hr
      · rw [if_neg hcond] at hb
        exact gen002Go_line_lb rest (i + 1) (some (j, name)) _ lb (by simp)
          (fun j' nm hjn => by
            obtain ⟨rfl, _⟩ := Prod.mk.injEq .. ▸ Option.some.inj hjn
            exact ⟨Nat.lt_succ_of_lt hji, hlb⟩) b hb

theorem gen002Go_pairwise :
    ∀ (lines : List String) (i : Nat) (st : Option (Nat × String)) (d : Int),
      (∀ j name, st = some (j, name) → j < i) →
      (gen002Go lines i st d).Pairwise (fun a b => a.line < b.line)
  | [], i, st, d, hs => by simp [gen002Go]
  | line :: rest, i, st, d, hs => by
    cases st with
    | none =>
      simp only [gen002Go]
      cases hm : funcMatch line with
      | none =>
        exact gen002Go_pairwise rest (i + 1) none d (by simp)
      | some name =>
        have hcond : ¬((0 : Int) + (countChar '\x7b' line : Int)
            - (countChar '\x7d' line : Int) ≤ 0 ∧ i < i) :=
          fun h => absurd h.2 (lt_irrefl i)
        simp only []
        rw [if_neg hcond]
        exact gen002Go_pairwise rest (i + 1) (some (i, name)) _
          (fun j nm hjn => by
            obtain ⟨rfl, _⟩ := Prod.mk.injEq .. ▸ Option.some.inj hjn
            exact Nat.lt_succ_self i)
    | some jn =>
      obtain ⟨j, name⟩ := jn
      have hji := hs j name rfl
      simp only [gen002Go]
      by_cases hcond : (d + (countChar '\x7b' line : Int)
          - (countChar '\x7d' line : Int) ≤ 0 ∧ j < i)
      · rw [if_pos hcond]
        rw [List.pairwise_append]
        refine ⟨?_, gen002Go_pairwise rest (i + 1) none _ (by simp), ?_⟩
        · by_cases h50 : 50 < i - j
          · rw [if_pos h50]; exact List.pairwise_singleton ..
          · rw [if_neg h50]; exact List.Pairwise.nil
        · intro a ha b hb
          by_cases h50 : 50 < i - j
          · rw [if_pos h50] at ha
            rcases List.mem_singleton.mp ha with rfl
            have := gen002Go_line_lb rest (i + 1) none _ (i + 2)
              (fun _ => le_refl _) (by simp) b hb
            simp only []
            omega
          · rw [if_neg h50] at ha
            simp at ha
      · rw [if_neg hcond]
        exact gen002Go_pairwise rest (i + 1) (some (j, name)) _
          (fun j' nm hjn => by
            obtain ⟨rfl, _⟩ := Prod.mk.injEq .. ▸ Option.some.inj hjn
            exact Nat.lt_succ_of_lt hji)

theorem gen002Check_pairwise (lines : List String) :
    (gen002Check lines).Pairwise (fun a b => a.line < b.line) :=
  gen002Go_pairwise lines 0 none 0 (by simp)

/-! ## Ordering of the whole output (claim C4) -/

theorem ruleFindings_pairwise (r : Rule) (hr : r ∈ rules)
    (fp lang : String) (lines : List String) (minSev : Nat) :
    (ruleFindings fp lang lines minSev r).Pairwise (fun a b => a.line < b.line) := by
  have hblock : ∀ chk, r.check = .blockRule chk → chk = gen002Check := by
    fin_cases hr <;> intro chk hck <;>
      first
        | (exact absurd hck (by simp [sec001, sec002, sec003, sec004, sec005,
            sec006, sec007, sec008, bug001, bug002, bug003, bug004, bug005,
            bug006, perf001, perf002, perf003, perf004, py001, py002, py003,
            go001, go002, react001, react002, ts001, ts002, gen001]))
        | (exact (RuleCheck.blockRule.inj hck).symm)
  unfold ruleFindings
  split
  · exact List.Pairwise.nil
  split
  · exact List.Pairwise.nil
  match hck : r.check with
  | .blockRule chk =>
    rw [hblock chk hck]
    refine List.Pairwise.map _ ?_ (gen002Check_pairwise lines)
    intro a b hab
    simpa [blockFinding] using hab
  | .lineRule pat ctx => exact lineScanGo_pairwise r fp pat ctx lines 0

theorem flatMapF_pairwise_lex (g : Rule → List Finding) (l : List Rule)
    (h1 : ∀ r ∈ l, (g r).Pairwise (fun a b => a.line < b.line))
    (h2 : ∀ r ∈ l, ∀ f ∈ g r, f.ruleId = r.id)
    (h3 : l.Pairwise (fun r s =>
      idIndex (rules.map Rule.id) r.id < idIndex (rules.map Rule.id) s.id)) :
    (flatMapF g l).Pairwise findingLex := by
  induction l with
  | nil => exact List.Pairwise.nil
  | cons r rest ih =>
    simp only [flatMapF]
    rw [List.pairwise_append]
    obtain ⟨hr3, hrest3⟩ := List.pairwise_cons.mp h3
    refine ⟨?_, ?_, ?_⟩
    · have hp := h1 r (List.mem_cons_self r rest)
      refine List.Pairwise.imp_of_mem ?_ hp
      intro a b ha hb hab
      have hida := h2 r (List.mem_cons_self r rest) a ha
      have hidb := h2 r (List.mem_cons_self r rest) b hb
      exact Or.inr ⟨by rw [ruleOrder, ruleOrder, hida, hidb], hab⟩
    · exact ih (fun s hs => h1 s (List.mem_cons_of_mem r hs))
        (fun s hs => h2 s (List.mem_cons_of_mem r hs)) hrest3
    · intro a ha b hb
      obtain ⟨s, hsrest, hbs⟩ := flatMapF_mem.mp hb
      have hida := h2 r (List.mem_cons_self r rest) a ha
      have hidb := h2 s (List.mem_cons_of_mem r hsrest) b hbs
      exact Or.inl (by rw [ruleOrder, ruleOrder, hida, hidb]; exact hr3 s hsrest)

/-- Claim C4: the findings list of `analyzeFile` is ordered with the Rule
Table's declaration order as the outer order and, within each single rule,
strictly ascending 1-based line numbers. -/
theorem analyzeFile_ordered (p c m : String) :
    (analyzeFile p c m).Pairwise findingLex := by
  unfold analyzeFile
  apply flatMapF_pairwise_lex
  · intro r hr
    exact ruleFindings_pairwise r hr p (detectLanguage p) (splitLines c)
      (sevOrZero m)
  · intro r _ f hf
    exact (ruleFindings_mem hf).1
  · decide

/-! ## Per-rule-id slices of the output (used for claims C5 and C7) -/

theorem flatMapF_append (g : Rule → List Finding) (l1 l2 : List Rule) :
    flatMapF g (l1 ++ l2) = flatMapF g l1 ++ flatMapF g l2 := by
  induction l1 with
  | nil => rfl
  | cons r rs ih => simp [flatMapF, ih]

theorem ruleFindings_filter_ne (fp lang : String) (lines : List String)
    (minSev : Nat) (r : Rule) (tid : String) (h : r.id ≠ tid) :
    (ruleFindings fp lang lines minSev r).filter (fun f => f.ruleId == tid) = [] := by
  rw [List.filter_eq_nil_iff]
  intro f hf
  have := (ruleFindings_mem hf).1
  simp [this, h]

theorem ruleFindings_filter_eq (fp lang : String) (lines : List String)
    (minSev : Nat) (r : Rule) (tid : String) (h : r.id = tid) :
    (ruleFindings fp lang lines minSev r).filter (fun f => f.ruleId == tid)
      = ruleFindings fp lang lines minSev r := by
  rw [List.filter_eq_self]
  intro f hf
  have := (ruleFindings_mem hf).1
  simp [this, h]

theorem filter_flatMapF_nil (fp lang : String) (lines : List String) (minSev : Nat)
    (l : List Rule) (tid : String) (h : ∀ r ∈ l, r.id ≠ tid) :
    (flatMapF (ruleFindings fp lang lines minSev) l).filter
      (fun f => f.ruleId == tid) = [] := by
  rw [flatMapF_filter]
  exact flatMapF_eq_nil fun r hr =>
    ruleFindings_filter_ne fp lang lines minSev r tid (h r hr)

/-- GEN002's contribution to `analyzeFile`: always-matching languages
(`["*"]`), severity `info`, whole-file block check. -/
theorem ruleFindings_gen002 (fp lang : String) (lines : List String) (minSev : Nat) :
    ruleFindings fp lang lines minSev gen002
      = if minSev = 0 then (gen002Check lines).map (blockFinding gen002) else [] := by
  unfold ruleFindings
  by_cases hz : minSev = 0
  · subst hz
    rw [if_neg (by simp [sevOrZero, SEVERITY, gen002])]
    rw [if_neg (by simp [gen002])]
    rw [if_pos rfl]
    rfl
  · have h1 : sevOrZero gen002.severity < minSev := by
      have : sevOrZero gen002.severity = 0 := rfl
      omega
    rw [if_pos h1, if_neg hz]

/-- PERF001's contribution to `analyzeFile`: severity `warning` (numeric
`1`), explicit language list, per-line scan of `perf001Pat` without a
context filter. -/
theorem ruleFindings_perf001 (fp lang : String) (lines : List String) (minSev : Nat) :
    ruleFindings fp lang lines minSev perf001
      = if minSev ≤ 1 ∧ perf001.languages.contains lang = true
        then lineScanGo perf001 fp perf001Pat none lines 0 else [] := by
  unfold ruleFindings
  by_cases h1 : minSev ≤ 1
  · have hs : ¬(sevOrZero perf001.severity < minSev) := by
      have : sevOrZero perf001.severity = 1 := rfl
      omega
    rw [if_neg hs]
    by_cases hl : perf001.languages.contains lang = true
    · have hcond : (!(perf001.languages.contains "*")
          && !(perf001.languages.contains lang)) = false := by rw [hl]; rfl
      rw [if_neg (by rw [hcond]; simp), if_pos ⟨h1, hl⟩]
      rfl
    · rw [Bool.not_eq_true] at hl
      have hcond : (!(perf001.languages.contains "*")
          && !(perf001.languages.contains lang)) = true := by rw [hl]; rfl
      rw [if_pos hcond, if_neg fun hand => absurd hand.2 (by rw [hl]; simp)]
  · have hs : sevOrZero perf001.severity < minSev := by
      have : sevOrZero perf001.severity = 1 := rfl
      omega
    rw [if_pos hs, if_neg (by simp [h1])]

theorem analyzeFile_filter_gen002 (p c m : String) :
    (analyzeFile p c m).filter (fun f => f.ruleId == "GEN002")
      = if sevOrZero m = 0
        then (gen002Check (splitLines c)).map (blockFinding gen002) else [] := by
  unfold analyzeFile
  rw [show rules = [sec001, sec002, sec003, sec004, sec005, sec006, sec007,
      sec008, bug001, bug002, bug003, bug004, bug005, bug006, perf001, perf002,
      perf003, perf004, py001, py002, py003, go001, go002, react001, react002,
      ts001, ts002, gen001] ++ [gen002] from rfl]
  rw [flatMapF_append, List.filter_append]
  rw [filter_flatMapF_nil p (detectLanguage p) (splitLines c) (sevOrZero m) _
    "GEN002" (by decide)]
  rw [List.nil_append]
  show ((ruleFindings p (detectLanguage p) (splitLines c) (sevOrZero m) gen002)
      ++ []).filter (fun (f : Finding) => f.ruleId == "GEN002") = _
  rw [List.append_nil]
  rw [ruleFindings_filter_eq p (detectLanguage p) (splitLines c) (sevOrZero m)
    gen002 "GEN002" rfl]
  exact ruleFindings_gen002 p (detectLanguage p) (splitLines c) (sevOrZero m)

theorem analyzeFile_filter_perf001 (p c m : String) :
    (analyzeFile p c m).filter (fun f => f.ruleId == "PERF001")
      = if sevOrZero m ≤ 1 ∧ perf001.languages.contains (detectLanguage p) = true
        then lineScanGo perf001 p perf001Pat none (splitLines c) 0 else [] := by
  unfold analyzeFile
  rw [show rules = [sec001, sec002, sec003, sec004, sec005, sec006, sec007,
      sec008, bug001, bug002, bug003, bug004, bug005, bug006] ++ [perf001] ++
      [perf002, perf003, perf004, py001, py002, py003, go001, go002, react001,
      react002, ts001, ts002, gen001, gen002] from rfl]
  rw [flatMapF_append, flatMapF_append, List.filter_append, List.filter_append]
  rw [filter_flatMapF_nil p (detectLanguage p) (splitLines c) (sevOrZero m)
    [sec001, sec002, sec003, sec004, sec005, sec006, sec007, sec008, bug001,
     bug002, bug003, bug004, bug005, bug006] "PERF001" (by decide)]
  rw [filter_flatMapF_nil p (detectLanguage p) (splitLines c) (sevOrZero m)
    [perf002, perf003, perf004, py001, py002, py003, go001, go002, react001,
     react002, ts001, ts002, gen001, gen002] "PERF001" (by decide)]
  simp only [List.nil_append, List.append_nil]
  show ((ruleFindings p (detectLanguage p) (splitLines c) (sevOrZero m) perf001)
      ++ []).filter (fun (f : Finding) => f.ruleId == "PERF001") = _
  rw [List.append_nil]
  rw [ruleFindings_filter_eq p (detectLanguage p) (splitLines c) (sevOrZero m)
    perf001 "PERF001" rfl]
  exact ruleFindings_perf001 p (detectLanguage p) (splitLines c) (sevOrZero m)

/-! ## Line splitting produces newline-free lines -/

theorem splitCharList_ne_nil (sep : Char) : ∀ cs, splitCharList sep cs ≠ []
  | [] => by simp [splitCharList]
  | c :: rest => by
    simp only [splitCharList]
    by_cases h : c = sep
    · simp [h]
    · rw [if_neg h]
      cases hs : splitCharList sep rest with
      | nil => simp
      | cons l ls => simp

theorem splitCharList_no_sep (sep : Char) :
    ∀ cs, ∀ l ∈ splitCharList sep cs, sep ∉ l.data
  | [], l, hl => by
    simp only [splitCharList, List.mem_singleton] at hl
    subst hl
    simp
  | c :: rest, l, hl => by
    simp only [splitCharList] at hl
    by_cases h : c = sep
    · rw [if_pos h] at hl
      rcases List.mem_cons.mp hl with rfl | htail
      · simp
      · exact splitCharList_no_sep sep rest l htail
    · rw [if_neg h] at hl
      cases hs : splitCharList sep rest with
      | nil => exact absurd hs (splitCharList_ne_nil sep rest)
      | cons l0 ls =>
        rw [hs] at hl
        rcases List.mem_cons.mp hl with rfl | htail
        · intro hmem
          rcases List.mem_cons.mp hmem with heq | hin
          · exact h heq.symm
          · exact splitCharList_no_sep sep rest l0
              (hs ▸ List.mem_cons_self l0 ls) hin
        · exact splitCharList_no_sep sep rest l
            (hs ▸ List.mem_cons_of_mem l0 htail)

theorem splitLines_no_newline (c : String) :
    ∀ l ∈ splitLines c, l.data.contains '\n' = false := by
  intro l hl
  have := splitCharList_no_sep '\n' c.data l hl
  simpa using this

/-! ## Claims C5 and C7 -/

theorem rules_ne_gen002_lineRule (r : Rule) (hr : r ∈ rules)
    (hne : r.id ≠ "GEN002") :
    ∃ pat ctx, r.check = RuleCheck.lineRule pat ctx := by
  fin_cases hr <;>
    first
      | exact ⟨_, _, rfl⟩
      | exact absurd rfl hne

/-- Claim C5: a line that classifies as a comment (optional leading
whitespace then one of the leaders `//`, `#`, `/*`, `*`, `--`, `;`) never
carries a finding of any line rule — every non-GEN002 finding sits on a
non-comment line — while the GEN002 block rule receives the whole split
content, comment lines included, whenever its severity passes the floor. -/
theorem analyzeFile_comment_lines (p c m : String) :
    (∀ f ∈ analyzeFile p c m, f.ruleId ≠ "GEN002" →
        isComment ((splitLines c).getD (f.line - 1) "") = false)
    ∧ (analyzeFile p c m).filter (fun f => f.ruleId == "GEN002")
        = (if sevOrZero m = 0
           then (gen002Check (splitLines c)).map (blockFinding gen002) else []) := by
  refine ⟨?_, analyzeFile_filter_gen002 p c m⟩
  intro f hf hne
  obtain ⟨r, hr, hfr⟩ := flatMapF_mem.mp hf
  have hid := (ruleFindings_mem hfr).1
  obtain ⟨pat, ctx, hck⟩ := rules_ne_gen002_lineRule r hr (by rw [← hid]; exact hne)
  unfold ruleFindings at hfr
  by_cases hs : sevOrZero r.severity < sevOrZero m
  · rw [if_pos hs] at hfr
    simp at hfr
  · rw [if_neg hs] at hfr
    by_cases hl : (!(r.languages.contains "*")
        && !(r.languages.contains (detectLanguage p))) = true
    · rw [if_pos hl] at hfr
      simp at hfr
    · rw [if_neg hl] at hfr
      rw [hck] at hfr
      simp only [] at hfr
      obtain ⟨j, hj, hfeq, hcm, _⟩ := lineScanGo_mem hfr
      have hidx : f.line - 1 = j := by rw [hfeq]; simp [mkFinding]
      rw [hidx]
      exact hcm

/-- Witness for C5: the SEC002 finding of `x=eval(1)` sits on a
non-comment line. -/
theorem analyzeFile_comment_lines_witness :
    isComment ((splitLines "x=eval(1)").getD ((mkFinding sec002 1).line - 1) "")
      = false :=
  (analyzeFile_comment_lines "a.js" "x=eval(1)" "info").1 (mkFinding sec002 1)
    (by decide) (by decide)

/-- Counterexample to claim C7: the raw (unsplit) text
`for (a of b) {\n  q.query(x)` does match PERF001's regex — the 100-character
window crosses the newline — yet `analyzeFile` returns no finding at all on
a `.js` file at floor `warning`, because line rules are tested against the
newline-free split lines, so a loop header and a query call on different
lines never produce the PERF001 finding the claim demands. -/
theorem perf001_no_cross_line_finding :
    reTest perf001Pat "for (a of b) \x7b\n  q.query(x)" = true ∧
      analyzeFile "a.js" "for (a of b) \x7b\n  q.query(x)" "warning" = [] :=
  ⟨by decide, by decide⟩

/-- Claim C7 (amended): the PERF001 findings of `analyzeFile` are exactly
the per-line scan of `perf001Pat` (loop construct, then up to 100 characters,
then an await/query marker) over the split lines, when the floor is at most
`warning` and the file's language is in PERF001's list — and every split
line is newline-free, so the lookahead window never extends into a
subsequent line. -/
theorem perf001_same_line_window (p c m : String) :
    ((analyzeFile p c m).filter (fun f => f.ruleId == "PERF001")
        = if sevOrZero m ≤ 1 ∧ perf001.languages.contains (detectLanguage p) = true
          then lineScanGo perf001 p perf001Pat none (splitLines c) 0 else [])
    ∧ ∀ l ∈ splitLines c, l.data.contains '\n' = false :=
  ⟨analyzeFile_filter_perf001 p c m, splitLines_no_newline c⟩

/-- Witness for C7's amended statement at a concrete split line. -/
theorem perf001_same_line_window_witness :
    ("for (a of b) \x7b" : String).data.contains '\n' = false :=
  (perf001_same_line_window "a.js" "for (a of b) \x7b\n  q.query(x)" "warning").2
    "for (a of b) \x7b" (by decide)

/-! ## Claim C8: a trailing line separator adds no findings -/

theorem splitCharList_append_sep (sep : Char) :
    ∀ cs : List Char, splitCharList sep (cs ++ [sep]) = splitCharList sep cs ++ [""]
  | [] => by simp [splitCharList]
  | c :: rest => by
    simp only [List.cons_append, splitCharList, List.append_eq]
    by_cases h : c = sep
    · rw [if_pos h, if_pos h, splitCharList_append_sep sep rest]
      rfl
    · rw [if_neg h, if_neg h, splitCharList_append_sep sep rest]
      cases hs : splitCharList sep rest with
      | nil => exact absurd hs (splitCharList_ne_nil sep rest)
      | cons l ls => simp

theorem splitLines_append_newline (c : String) :
    splitLines (c ++ "\n") = splitLines c ++ [""] := by
  unfold splitLines splitChar
  rw [data_append]
  exact splitCharList_append_sep '\n' c.data

theorem lineScanGo_append (r : Rule) (fp : String) (pat : Re)
    (ctx : Option (String → String → Bool)) :
    ∀ (l1 l2 : List String) (i : Nat),
      lineScanGo r fp pat ctx (l1 ++ l2) i
        = lineScanGo r fp pat ctx l1 i ++ lineScanGo r fp pat ctx l2 (i + l1.length)
  | [], l2, i => by simp [lineScanGo]
  | x :: xs, l2, i => by
    have harith : i + 1 + xs.length = i + (x :: xs).length := by
      simp
      omega
    simp only [List.cons_append, lineScanGo, List.append_eq]
    rw [lineScanGo_append r fp pat ctx xs l2 (i + 1), harith]
    split_ifs <;> simp

theorem lineScanGo_single_empty (r : Rule) (fp : String) (pat : Re)
    (ctx : Option (String → String → Bool)) (k : Nat)
    (hpat : reTest pat "" = false) :
    lineScanGo r fp pat ctx [""] k = [] := by
  simp [lineScanGo, hpat, show isComment "" = false from rfl]

theorem gen002Go_append_empty :
    ∀ (lines : List String) (i : Nat) (st : Option (Nat × String)) (d : Int),
      (∀ j name, st = some (j, name) → j < i ∧ (d ≤ 0 → j + 1 = i)) →
      gen002Go (lines ++ [""]) i st d = gen002Go lines i st d
  | [], i, st, d, hinv => by
    cases st with
    | none => rfl
    | some jn =>
      obtain ⟨j, name⟩ := jn
      obtain ⟨hji, himp⟩ := hinv j name rfl
      simp only [List.nil_append, gen002Go]
      have hd : d + (countChar '\x7b' "" : Int) - (countChar '\x7d' "" : Int)
          = d := by
        norm_num [countChar]
      rw [hd]
      by_cases hcl : d ≤ 0
      · rw [if_pos ⟨hcl, hji⟩]
        have h1 : i - j = 1 := by
          have := himp hcl
          omega
        rw [h1]
        rw [if_neg (by omega)]
        rfl
      · rw [if_neg (fun hand => absurd hand.1 hcl)]
  | line :: rest, i, st, d, hinv => by
    simp only [List.cons_append, gen002Go]
    cases st with
    | none =>
      cases hm : funcMatch line with
      | none =>
        simp only []
        exact gen002Go_append_empty rest (i + 1) none d (by simp)
      | some name =>
        simp only []
        have hcond : ¬((0 : Int) + (countChar '\x7b' line : Int)
            - (countChar '\x7d' line : Int) ≤ 0 ∧ i < i) :=
          fun hand => absurd hand.2 (lt_irrefl i)
        rw [if_neg hcond, if_neg hcond]
        exact gen002Go_append_empty rest (i + 1) (some (i, name)) _
          (fun j' n' hjn => by
            obtain ⟨rfl, _⟩ := Prod.mk.injEq .. ▸ Option.some.inj hjn
            exact ⟨Nat.lt_succ_self i, fun _ => rfl⟩)
    | some jn =>
      obtain ⟨j, name⟩ := jn
      obtain ⟨hji, himp⟩ := hinv j name rfl
      simp only []
      by_cases hcond : (d + (countChar '\x7b' line : Int)
          - (countChar '\x7d' line : Int) ≤ 0 ∧ j < i)
      · rw [if_pos hcond, if_pos hcond]
        congr 1
        exact gen002Go_append_empty rest (i + 1) none _ (by simp)
      · rw [if_neg hcond, if_neg hcond]
        exact gen002Go_append_empty rest (i + 1) (some (j, name)) _
          (fun j' n' hjn => by
            obtain ⟨rfl, _⟩ := Prod.mk.injEq .. ▸ Option.some.inj hjn
            exact ⟨Nat.lt_succ_of_lt hji,
              fun hd'le => absurd ⟨hd'le, hji⟩ hcond⟩)

theorem gen002Check_append_empty (ls : List String) :
    gen002Check (ls ++ [""]) = gen002Check ls :=
  gen002Go_append_empty ls 0 none 0 (by simp)

theorem ruleFindings_append_empty (fp lang : String) (minSev : Nat)
    (ls : List String) :
    ∀ r ∈ rules,
      ruleFindings fp lang (ls ++ [""]) minSev r
        = ruleFindings fp lang ls minSev r := by
  intro r hr
  unfold ruleFindings
  split
  · rfl
  split
  · rfl
  fin_cases hr <;>
    simp only [sec001, sec002, sec003, sec004, sec005, sec006, sec007, sec008,
      bug001, bug002, bug003, bug004, bug005, bug006, perf001, perf002, perf003,
      perf004, py001, py002, py003, go001, go002, react001, react002, ts001,
      ts002, gen001, gen002] <;>
    first
      | rw [gen002Check_append_empty ls]
      | (rw [lineScanGo_append, lineScanGo_single_empty _ _ _ _ _ (by rfl)]
         exact List.append_nil _)

/-- Claim C8: content splitting uses the newline as separator and a
trailing final separator creates no phantom findings: appending a final
`\n` to any content leaves the findings list of `analyzeFile` unchanged
(same rules, lines, and order), for every path and floor. -/
theorem analyzeFile_trailing_newline (p c m : String) :
    analyzeFile p (c ++ "\n") m = analyzeFile p c m := by
  unfold analyzeFile
  rw [splitLines_append_newline]
  exact flatMapF_congr
    (ruleFindings_append_empty p (detectLanguage p) (sevOrZero m) (splitLines c))

/-! ## Claim C9: summary generation -/

theorem tallyGo_spec : ∀ (l : List Finding) (t e w inf : Nat),
    tallyGo l (t, e, w, inf)
      = (t + l.length,
         e + (l.filter (fun f => f.severity == "error")).length,
         w + (l.filter
           (fun f => !(f.severity == "error") && f.severity == "warning")).length,
         inf + (l.filter
           (fun f => !(f.severity == "error") && !(f.severity == "warning"))).length)
  | [], t, e, w, inf => by simp [tallyGo]
  | issue :: rest, t, e, w, inf => by
    simp only [tallyGo]
    by_cases he : issue.severity = "error"
    · rw [if_pos he, tallyGo_spec rest (t + 1) (e + 1) w inf]
      simp [List.filter_cons, he, Prod.ext_iff]
      omega
    · rw [if_neg he]
      by_cases hw : issue.severity = "warning"
      · rw [if_pos hw, tallyGo_spec rest (t + 1) e (w + 1) inf]
        simp [List.filter_cons, he, hw, Prod.ext_iff]
        omega
      · rw [if_neg hw, tallyGo_spec rest (t + 1) e w (inf + 1)]
        simp [List.filter_cons, he, hw, Prod.ext_iff]
        omega

theorem tallyResults_spec : ∀ (rs : List FileResult) (t e w inf : Nat),
    tallyResults rs (t, e, w, inf)
      = (t + totalOf rs, e + errOf rs, w + warnOf rs, inf + infoOf rs)
  | [], t, e, w, inf => by
    simp [tallyResults, totalOf, errOf, warnOf, infoOf, allIssues]
  | r :: rs, t, e, w, inf => by
    simp only [tallyResults]
    rw [tallyGo_spec r.issues t e w inf, tallyResults_spec rs]
    simp [totalOf, errOf, warnOf, infoOf, allIssues, List.filter_append,
      Prod.ext_iff]
    omega

theorem isPrefixOf_append_self (p t : List Char) : p.isPrefixOf (p ++ t) = true := by
  induction p with
  | nil => simp [List.isPrefixOf]
  | cons c cs ih => simp [List.isPrefixOf, ih]

theorem hasSubList_append : ∀ (a p b : List Char), hasSubList p (a ++ p ++ b) = true
  | [], p, b => by
    rw [List.nil_append]
    cases hc : p ++ b with
    | nil =>
      obtain ⟨rfl, rfl⟩ := List.append_eq_nil.mp hc
      rfl
    | cons c r =>
      simp only [hasSubList]
      rw [← hc, isPrefixOf_append_self]
      simp
  | x :: a', p, b => by
    have : (x :: a') ++ p ++ b = x :: (a' ++ p ++ b) := by simp
    rw [this]
    simp only [hasSubList]
    rw [hasSubList_append a' p b]
    simp

theorem hasSubstr_of_parts (s m : String) (a b : List Char)
    (h : s.data = a ++ m.data ++ b) : hasSubstr s m = true := by
  unfold hasSubstr
  rw [h]
  exact hasSubList_append a m.data b

/-- Claim C9: with zero total findings, `generateSummary` produces the fixed
message, which contains "no issues found" case-insensitively; with total
N > 0 it produces the header (which contains the literal count N), then one
bucket line per non-zero severity bucket showing that bucket's count — the
error bucket before warning before info, each present only when its count
is positive — then the footer. -/
theorem generateSummary_spec (results : List FileResult) :
    (totalOf results = 0 → generateSummary results = noIssuesMessage)
    ∧ containsIC noIssuesMessage "no issues found" = true
    ∧ (0 < totalOf results →
        generateSummary results
            = summaryHeader (totalOf results)
              ++ (if 0 < errOf results then errLine (errOf results) else "")
              ++ (if 0 < warnOf results then warnLine (warnOf results) else "")
              ++ (if 0 < infoOf results then infoLine (infoOf results) else "")
              ++ summaryFooter
          ∧ hasSubstr (generateSummary results) (toString (totalOf results))
              = true) := by
  have htally : tallyResults results (0, 0, 0, 0)
      = (totalOf results, errOf results, warnOf results, infoOf results) := by
    rw [tallyResults_spec results 0 0 0 0]
    simp
  refine ⟨?_, by rfl, ?_⟩
  · intro h0
    unfold generateSummary
    rw [htally]
    simp only []
    rw [if_pos h0]
  · intro hpos
    have hA : generateSummary results
        = summaryHeader (totalOf results)
          ++ (if 0 < errOf results then errLine (errOf results) else "")
          ++ (if 0 < warnOf results then warnLine (warnOf results) else "")
          ++ (if 0 < infoOf results then infoLine (infoOf results) else "")
          ++ summaryFooter := by
      unfold generateSummary
      rw [htally]
      simp only []
      rw [if_neg (by omega)]
    refine ⟨hA, hasSubstr_of_parts _ _
      ("## 🔍 Li Code Review Summary\n\nFound **".data)
      (("** issue" ++ plural (totalOf results) ++ ":\n"
        ++ (if 0 < errOf results then errLine (errOf results) else "")
        ++ (if 0 < warnOf results then warnLine (warnOf results) else "")
        ++ (if 0 < infoOf results then infoLine (infoOf results) else "")
        ++ summaryFooter).data) ?_⟩
    rw [hA]
    unfold summaryHeader
    simp [data_append, List.append_assoc]

/-- Witness for C9 at a one-finding result list (total `1` appears in the
summary text). -/
theorem generateSummary_spec_witness :
    hasSubstr (generateSummary c9results) (toString (totalOf c9results)) = true :=
  ((generateSummary_spec c9results).2.2 (by decide)).2

end LiAgent
